import Mathlib

/-!
Verification of the gemini_quest backend (src/utils.py, src/app.py) against its
natural-language specification.  Strings are embedded as `List Char`; Python
functions are translated into executable Lean definitions, and the claims are
settled as theorems about those definitions.
-/

set_option autoImplicit false
set_option maxRecDepth 100000

universe u v

/-! ### Python string primitives -/

/-- Python whitespace predicate (`str.isspace`, restricted to the ASCII range,
which is the only range exercised by this code base): space, tab, newline,
carriage return, vertical tab, form feed.  The same set models `\s` in the
`re` patterns of `clean_gemini_json`. -/
def pyIsSpace (c : Char) : Bool :=
  c = ' ' || c = '\t' || c = '\n' || c = '\r' || c = '\x0b' || c = '\x0c'

/-- Python `str.strip()`: remove leading and trailing whitespace. -/
def pyStrip (s : List Char) : List Char :=
  ((s.dropWhile pyIsSpace).reverse.dropWhile pyIsSpace).reverse

/-- Python `\w` word-character class (ASCII range): letters, digits, underscore. -/
def pyIsWord (c : Char) : Bool :=
  c.isAlphanum || c = '_'

/-- Python `str.replace(old, new)` for a single-character pattern `old`:
every occurrence of the character is replaced by `rep`. -/
def replaceChar (c : Char) (rep : List Char) : List Char → List Char
  | [] => []
  | a :: as => (if a = c then rep else [a]) ++ replaceChar c rep as

/-- Function `escape_json_string` from src/utils.py (lines 19-21): the five chained
`str.replace` calls, applied in source order (backslash first, then quote,
newline, carriage return, tab). -/
def escape_json_string (text : List Char) : List Char :=
  replaceChar '\t' ['\\', 't']
    (replaceChar '\r' ['\\', 'r']
      (replaceChar '\n' ['\\', 'n']
        (replaceChar '"' ['\\', '"']
          (replaceChar '\\' ['\\', '\\'] text))))

/-- Decoding of a single JSON escape character, per the JSON standard
(the escapes relevant to this code; `\uXXXX` never occurs in
`escape_json_string` output and is not modelled). -/
def unescChar (e : Char) : Option Char :=
  if e = '\\' then some '\\'
  else if e = '"' then some '"'
  else if e = 'n' then some '\n'
  else if e = 'r' then some '\r'
  else if e = 't' then some '\t'
  else if e = '/' then some '/'
  else if e = 'b' then some (Char.ofNat 8)
  else if e = 'f' then some (Char.ofNat 12)
  else none

/-- A standard JSON string-body decoder (the "downstream JSON consumer" of the
spec): backslash escapes are decoded, an invalid or dangling escape is a
decode error. -/
def json_string_decode : List Char → Option (List Char)
  | [] => some []
  | c :: rest =>
    if c = '\\' then
      match rest with
      | [] => none
      | e :: rest' =>
        match unescChar e with
        | some d => (json_string_decode rest').map (d :: ·)
        | none => none
    else (json_string_decode rest).map (c :: ·)

/-- The per-character form of `escape_json_string`. -/
def escChar (a : Char) : List Char :=
  if a = '\\' then ['\\', '\\']
  else if a = '"' then ['\\', '"']
  else if a = '\n' then ['\\', 'n']
  else if a = '\r' then ['\\', 'r']
  else if a = '\t' then ['\\', 't']
  else [a]

theorem replaceChar_append (c : Char) (rep xs ys : List Char) :
    replaceChar c rep (xs ++ ys) = replaceChar c rep xs ++ replaceChar c rep ys := by
  induction xs with
  | nil => rfl
  | cons a as ih => simp [replaceChar, ih, List.append_assoc]

theorem escape_append (xs ys : List Char) :
    escape_json_string (xs ++ ys) = escape_json_string xs ++ escape_json_string ys := by
  simp [escape_json_string, replaceChar_append]

theorem escape_cons (a : Char) (as : List Char) :
    escape_json_string (a :: as) = escChar a ++ escape_json_string as := by
  have h : escape_json_string (a :: as) = escape_json_string [a] ++ escape_json_string as := by
    simpa using escape_append [a] as
  rw [h]
  congr 1
  by_cases h1 : a = '\\'
  · subst h1; rfl
  by_cases h2 : a = '"'
  · subst h2; rfl
  by_cases h3 : a = '\n'
  · subst h3; rfl
  by_cases h4 : a = '\r'
  · subst h4; rfl
  by_cases h5 : a = '\t'
  · subst h5; rfl
  simp [escape_json_string, replaceChar, escChar, h1, h2, h3, h4, h5]

theorem decode_escChar (a : Char) (t : List Char) :
    json_string_decode (escChar a ++ t) = (json_string_decode t).map (a :: ·) := by
  by_cases h1 : a = '\\'
  · subst h1; rfl
  by_cases h2 : a = '"'
  · subst h2; rfl
  by_cases h3 : a = '\n'
  · subst h3; rfl
  by_cases h4 : a = '\r'
  · subst h4; rfl
  by_cases h5 : a = '\t'
  · subst h5; rfl
  have he : escChar a = [a] := by simp [escChar, h1, h2, h3, h4, h5]
  rw [he, List.singleton_append, json_string_decode.eq_def]
  simp only [h1, if_false]

/-- Round trip: a standard JSON string decoder inverts `escape_json_string`. -/
theorem decode_escape_roundtrip (s : List Char) :
    json_string_decode (escape_json_string s) = some s := by
  induction s with
  | nil => rfl
  | cons a as ih => rw [escape_cons, decode_escChar, ih]; rfl


/-! ### A small backtracking matcher for the `re` patterns of `clean_gemini_json`

Every pattern in `clean_gemini_json` is a sequence of literals, optional
literals, and greedy/lazy repetitions of single-character classes, so a
pattern is embedded as a list of tokens and matched with Python's
backtracking order: earlier tokens keep their first viable choice while
later tokens exhaust theirs; greedy repetitions try the longest repetition
first, lazy ones the shortest. -/

/-- One token of a regex pattern: a literal, an optional literal (greedy),
a greedy class repetition (`*` / `+`), a lazy class repetition (`*?`), or
an optional class character (greedy `?`). -/
inductive RTok where
  | lit (s : List Char)
  | optLit (s : List Char)
  | starG (p : Char → Bool)
  | plusG (p : Char → Bool)
  | starL (p : Char → Bool)
  | optC (p : Char → Bool)

/-- First `some` result of `f` over a list, in order. -/
def firstSome {α : Type u} {β : Type v} (f : α → Option β) : List α → Option β
  | [] => none
  | a :: as =>
    match f a with
    | some b => some b
    | none => firstSome f as

/-- The sequence `n, n-1, ..., 0`: the order in which a greedy repetition tries lengths. -/
def descRange (n : Nat) : List Nat := (List.range (n + 1)).reverse

/-- The sequence `0, 1, ..., n`: the order in which a lazy repetition tries lengths. -/
def ascRange (n : Nat) : List Nat := List.range (n + 1)

/-- Match a token list at the head of `s`; on success return the remainder of
`s` after the match.  Backtracking follows Python's `re` engine order. -/
def mtch : List RTok → List Char → Option (List Char)
  | [], s => some s
  | .lit l :: rest, s =>
    if l.isPrefixOf s then mtch rest (s.drop l.length) else none
  | .optLit l :: rest, s =>
    if l.isPrefixOf s then
      match mtch rest (s.drop l.length) with
      | some r => some r
      | none => mtch rest s
    else mtch rest s
  | .starG p :: rest, s =>
    firstSome (fun i => mtch rest (s.drop i)) (descRange (s.takeWhile p).length)
  | .plusG p :: rest, s =>
    let n := (s.takeWhile p).length
    if n = 0 then none
    else firstSome (fun i => mtch rest (s.drop i)) ((descRange n).dropLast)
  | .starL p :: rest, s =>
    firstSome (fun i => mtch rest (s.drop i)) (ascRange (s.takeWhile p).length)
  | .optC p :: rest, s =>
    match s with
    | [] => mtch rest []
    | c :: cs =>
      if p c then
        match mtch rest cs with
        | some r => some r
        | none => mtch rest (c :: cs)
      else mtch rest (c :: cs)

/-- Driver for `re.sub` with a constant replacement: scan left to
right, replace each non-overlapping match (none of the patterns used here can
match the empty string), and continue after the matched span.  `fuel` is an
upper bound on the remaining scan length. -/
def subAll (toks : List RTok) (rep : List Char) : Nat → List Char → List Char
  | _, [] => []
  | 0, s => s
  | Nat.succ fuel, c :: cs =>
    match mtch toks (c :: cs) with
    | some rem => rep ++ subAll toks rep fuel rem
    | none => c :: subAll toks rep fuel cs

/-- Run `re.sub(pattern, constant, s)` with full fuel. -/
def reSubConst (toks : List RTok) (rep : List Char) (s : List Char) : List Char :=
  subAll toks rep s.length s

/-- The backtick character. -/
def btick : Char := Char.ofNat 96

/-- Tail of the code-fence pattern after the capture group: `\n?\s*` followed
by three backticks. -/
def fenceTailToks : List RTok :=
  [.optC (fun c => c = '\n'), .starG pyIsSpace, .lit [btick, btick, btick]]

/-- Match `(?:json)?\s*\n?(.*?)\n?\s*` + three backticks (DOTALL) at `s3`,
the text just after an opening triple backtick; return the capture group and
the remainder.  Alternatives are tried in Python's backtracking order:
`(?:json)?` consuming first, `\s*` longest first, `\n?` consuming first,
then the lazy group shortest first. -/
def fenceAfterTicks (s3 : List Char) : Option (List Char × List Char) :=
  let jsonRems : List (List Char) :=
    if ['j', 's', 'o', 'n'].isPrefixOf s3 then [s3.drop 4, s3] else [s3]
  firstSome
    (fun t0 =>
      firstSome
        (fun i =>
          let t1 := t0.drop i
          let nlRems : List (List Char) :=
            match t1 with
            | c :: cs => if c = '\n' then [cs, t1] else [t1]
            | [] => [[]]
          firstSome
            (fun t2 =>
              firstSome
                (fun k =>
                  match mtch fenceTailToks (t2.drop k) with
                  | some rem => some (t2.take k, rem)
                  | none => none)
                (ascRange t2.length))
            nlRems)
        (descRange (t0.takeWhile pyIsSpace).length))
    jsonRems

/-- Match the full code-fence pattern at the head of `s`. -/
def matchFenceAt (s : List Char) : Option (List Char × List Char) :=
  if [btick, btick, btick].isPrefixOf s then fenceAfterTicks (s.drop 3) else none

/-- Driver for the code-fence `re.sub`, whose replacement is the
capture group (`r"\1"`). -/
def subFencesAux : Nat → List Char → List Char
  | _, [] => []
  | 0, s => s
  | Nat.succ fuel, c :: cs =>
    match matchFenceAt (c :: cs) with
    | some (grp, rem) => grp ++ subFencesAux fuel rem
    | none => c :: subFencesAux fuel cs

/-- Line 27 of src/utils.py: strip code fences, keeping the fenced content. -/
def stripFences (s : List Char) : List Char := subFencesAux s.length s

/-- Pattern of line 42: `\s*"\w+":\s*\[.*?\]\s*}` (no DOTALL, so `.` excludes
newline), replaced by a closing brace. -/
def toksStrayKV : List RTok :=
  [.starG pyIsSpace, .lit ['"'], .plusG pyIsWord, .lit ['"', ':'],
   .starG pyIsSpace, .lit ['['], .starL (fun c => !(c = '\n')), .lit [']'],
   .starG pyIsSpace, .lit ['\x7d']]

/-- Pattern of line 45: `\s*[^"}\n]+\s*}`, replaced by a closing brace. -/
def toksStrayText : List RTok :=
  [.starG pyIsSpace, .plusG (fun c => !(c = '"' || c = '\x7d' || c = '\n')),
   .starG pyIsSpace, .lit ['\x7d']]

/-- Pattern of line 48: `,\s*}`, replaced by a closing brace. -/
def toksTrailingComma : List RTok :=
  [.lit [','], .starG pyIsSpace, .lit ['\x7d']]

/-- Pattern of line 49: `}\s*,`, replaced by brace-comma. -/
def toksBraceComma : List RTok :=
  [.lit ['\x7d'], .starG pyIsSpace, .lit [',']]

/-- Pattern of line 52: `\s*json}`, replaced by a closing brace. -/
def toksJsonEnd : List RTok :=
  [.starG pyIsSpace, .lit ['j', 's', 'o', 'n', '\x7d']]

/-- Lines 41-54 of src/utils.py: the regex cleanup passes applied after the
bracket slice, in source order. -/
def postClean (s : List Char) : List Char :=
  reSubConst toksJsonEnd ['\x7d']
    (reSubConst toksBraceComma ['\x7d', ',']
      (reSubConst toksTrailingComma ['\x7d']
        (reSubConst toksStrayText ['\x7d']
          (reSubConst toksStrayKV ['\x7d'] s))))

/-- First index of character `c` in `s` (`re.search` of a single-character
pattern). -/
def findCharIdx (c : Char) (s : List Char) : Option Nat :=
  s.findIdx? (fun a => a = c)

/-- Function `clean_gemini_json` from src/utils.py (lines 23-54): strip code fences;
find the first `[` and — by searching the reversed string — the last `]`; if
either is missing return the empty string (the failure signal); otherwise keep
only the text between them and run the regex cleanup passes on it. -/
def clean_gemini_json (json_string : List Char) : List Char :=
  let s1 := stripFences json_string
  match findCharIdx '[' s1, findCharIdx ']' s1.reverse with
  | some start_index, some rev_index =>
    let end_index := s1.length - rev_index
    postClean ((s1.take end_index).drop start_index)
  | _, _ => []


/-! ### JSON values and the validation pipeline -/

/-- A decoded JSON value, the output type of Python's `json.loads`. -/
inductive JValue where
  | jnull
  | jbool (b : Bool)
  | jnum (n : Int)
  | jstr (s : List Char)
  | jarr (items : List JValue)
  | jobj (fields : List (List Char × JValue))

/-- A validated question record, as appended to `valid_questions` in
`parse_gemini_response` (lines 80-85 of src/utils.py). -/
structure QuestionRecord where
  question : List Char
  options : List (List Char)
  correctAnswer : List Char
  explanation : List Char
deriving DecidableEq

/-- Dictionary lookup on a decoded JSON object.  Python's `json.loads` keeps
the last binding of a duplicated key, hence the reversed search. -/
def jget (fields : List (List Char × JValue)) (key : List Char) : Option JValue :=
  (fields.reverse.find? (fun kv => kv.1 = key)).map (fun kv => kv.2)

/-- Models `"k" in q and isinstance(q["k"], str)`: the field, if present and a string. -/
def getStr (fields : List (List Char × JValue)) (key : List Char) : Option (List Char) :=
  match jget fields key with
  | some (.jstr s) => some s
  | _ => none

/-- Models `"k" in q and isinstance(q["k"], list)`: the field, if present and a list. -/
def getArr (fields : List (List Char × JValue)) (key : List Char) : Option (List JValue) :=
  match jget fields key with
  | some (.jarr l) => some l
  | _ => none

/-- Models `all(isinstance(opt, str) for opt in options)` together with the use of the
options as strings: `some` exactly when every element is a string. -/
def allStrings : List JValue → Option (List (List Char))
  | [] => some []
  | v :: vs =>
    match v with
    | .jstr s => (allStrings vs).map (s :: ·)
    | _ => none

def kQuestion : List Char := "question".toList
def kOptions : List Char := "options".toList
def kCorrectAnswer : List Char := "correctAnswer".toList
def kExplanation : List Char := "explanation".toList

/-- The per-candidate validation of `parse_gemini_response` (lines 71-89 of
src/utils.py): the candidate must be a dict with string `question`, a list
`options` of exactly 4 strings, string `correctAnswer` and string
`explanation`; the stripped `correctAnswer` must equal one stripped option
exactly; on success the record is built from the original (unstripped) field
values, each passed through `escape_json_string`.  A failing candidate yields
`none` (it is only logged in the source). -/
def validate_one (q : JValue) : Option QuestionRecord :=
  match q with
  | .jobj fields =>
    match getStr fields kQuestion, getArr fields kOptions,
          getStr fields kCorrectAnswer, getStr fields kExplanation with
    | some questionText, some optVals, some correctAnswerRaw, some explanationText =>
      if optVals.length = 4 then
        match allStrings optVals with
        | some opts =>
          if pyStrip correctAnswerRaw ∈ opts.map pyStrip then
            some { question := escape_json_string questionText,
                   options := opts.map escape_json_string,
                   correctAnswer := escape_json_string correctAnswerRaw,
                   explanation := escape_json_string explanationText }
          else none
        | none => none
      else none
    | _, _, _, _ => none
  | _ => none

/-- Function `parse_gemini_response` from src/utils.py (lines 56-104), with Python's
`json.loads` passed in as the external standard-library decoder `loads`:
clean the text (empty result is the cleaning failure), decode it, require a
JSON list, validate each candidate in order, and return the accepted records
— or `None` when the decode fails, the value is not a list, or no candidate
survives validation. -/
def parse_gemini_response (loads : List Char → Option JValue)
    (response_text : List Char) : Option (List QuestionRecord) :=
  let cleaned_json := clean_gemini_json response_text
  if cleaned_json = [] then none
  else
    match loads cleaned_json with
    | none => none
    | some (.jarr questions) =>
      let valid_questions := questions.filterMap validate_one
      if valid_questions.length > 0 then some valid_questions else none
    | some _ => none

/-! ### The fetch entry point and the HTTP handler -/

/-- Function `fetch_trivia_question_from_gemini` from src/utils.py (lines 106-152).
The external effects are passed in: `apiKey` is the `GEMINI_API_KEY`
environment value (its absence makes `get_gemini_api_key` raise, which the
enclosing `except` turns into `None` before the model is ever invoked);
`generate_content` is the outcome of the single model-client call (its
exceptions are likewise turned into `None`); `loads` is the standard JSON
decoder.  The prompt text built from `category` and `num_questions` only
flows into the external call and does not affect the result shape.  The
second component of the result instruments the embedding with the number of
model-client invocations performed. -/
def fetch_trivia_question_from_gemini (apiKey : Option (List Char))
    (generate_content : Except Unit (List Char))
    (loads : List Char → Option JValue)
    (category : List Char) (num_questions : Nat) :
    Option (List QuestionRecord) × Nat :=
  match apiKey with
  | none => (none, 0)
  | some _ =>
    match generate_content with
    | .error _ => (none, 1)
    | .ok responseText =>
      match parse_gemini_response loads responseText with
      | some parsed => (if parsed.isEmpty then none else some parsed, 1)
      | none => (none, 1)

/-- Python truthiness of an optional list: `None` and `[]` are falsy. -/
def truthyList {α : Type u} : Option (List α) → Bool
  | some (_ :: _) => true
  | _ => false

/-- Lines 39-41 and 53-55 of src/app.py: the cached questions whose text has
not yet been served for the category. -/
def availableOf (cached : List QuestionRecord) (usedSet : List (List Char)) :
    List QuestionRecord :=
  cached.filter (fun q => !(usedSet.contains q.question))

/-- Lines 34-68 of src/app.py, after the cache is populated: compute the
unused questions; when fewer than requested, perform exactly one refetch
(`fetchRefresh` is its result) and recompute; finally return all available
questions when still short, else a random sample of the requested size
(`sample` models `random.sample`).  The second component counts
`fetch_trivia_question_from_gemini` invocations, starting from `k` for the
initial population.  The cache writes and the used-set update after selection
are external side effects with no influence on the response value. -/
def serve_questions (cached : List QuestionRecord)
    (fetchRefresh : Option (List QuestionRecord))
    (sample : List QuestionRecord → Nat → List QuestionRecord)
    (usedSet : List (List Char)) (num_questions : Nat) (k : Nat) :
    List QuestionRecord × Nat :=
  let available := availableOf cached usedSet
  let refreshed :=
    if available.length < num_questions then
      (if truthyList fetchRefresh then availableOf (fetchRefresh.getD []) usedSet
       else available, k + 1)
    else (available, k)
  (if refreshed.1.length < num_questions then refreshed.1
   else sample refreshed.1 num_questions, refreshed.2)

/-- Function `get_questions` from src/app.py (lines 18-68): on a cache miss the first
fetch populates the cache, a falsy result being the 500 error; then
`serve_questions` runs.  `cacheVal` is the `cache.get` result, `fetchFirst`
and `fetchRefresh` the results of the two possible fetch calls. -/
def get_questions (cacheVal : Option (List QuestionRecord))
    (fetchFirst fetchRefresh : Option (List QuestionRecord))
    (sample : List QuestionRecord → Nat → List QuestionRecord)
    (usedSet : List (List Char)) (num_questions : Nat) :
    Except Unit (List QuestionRecord × Nat) :=
  match cacheVal with
  | none =>
    if truthyList fetchFirst then
      .ok (serve_questions (fetchFirst.getD []) fetchRefresh sample usedSet num_questions 1)
    else .error ()
  | some cached =>
    .ok (serve_questions cached fetchRefresh sample usedSet num_questions 0)

/-! ### Concrete fixtures -/

/-- A well-formed raw response: one valid candidate. -/
def goodText : List Char :=
  "[\x7b\"question\": \"Q\", \"options\": [\"A\", \"B\", \"C\", \"D\"], \"correctAnswer\": \"A\", \"explanation\": \"E\"\x7d]".toList

/-- The decoded form of `goodText`. -/
def goodCand : JValue :=
  .jobj [(kQuestion, .jstr "Q".toList),
         (kOptions, .jarr [.jstr "A".toList, .jstr "B".toList,
                           .jstr "C".toList, .jstr "D".toList]),
         (kCorrectAnswer, .jstr "A".toList),
         (kExplanation, .jstr "E".toList)]

/-- A JSON decoder stub that is honest on `goodText` (which cleaning leaves
unchanged) and fails elsewhere. -/
def goodLoads (s : List Char) : Option JValue :=
  if s = goodText then some (.jarr [goodCand]) else none

/-- The record `parse_gemini_response` produces from `goodText`. -/
def goodRec : QuestionRecord :=
  { question := "Q".toList,
    options := ["A".toList, "B".toList, "C".toList, "D".toList],
    correctAnswer := "A".toList,
    explanation := "E".toList }

/-- A raw response whose candidate's `correctAnswer` carries a leading space
but strips to the first option. -/
def spacedText : List Char :=
  "[\x7b\"question\": \"Q\", \"options\": [\"Paris\", \"London\", \"Berlin\", \"Madrid\"], \"correctAnswer\": \" Paris\", \"explanation\": \"E\"\x7d]".toList

/-- The decoded form of `spacedText`. -/
def spacedCand : JValue :=
  .jobj [(kQuestion, .jstr "Q".toList),
         (kOptions, .jarr [.jstr "Paris".toList, .jstr "London".toList,
                           .jstr "Berlin".toList, .jstr "Madrid".toList]),
         (kCorrectAnswer, .jstr " Paris".toList),
         (kExplanation, .jstr "E".toList)]

/-- A JSON decoder stub that is honest on `spacedText` (which cleaning leaves
unchanged) and fails elsewhere. -/
def spacedLoads (s : List Char) : Option JValue :=
  if s = spacedText then some (.jarr [spacedCand]) else none

/-- The record `parse_gemini_response` produces from `spacedText`: its
`correctAnswer` keeps the leading space. -/
def spacedRec : QuestionRecord :=
  { question := "Q".toList,
    options := ["Paris".toList, "London".toList, "Berlin".toList, "Madrid".toList],
    correctAnswer := " Paris".toList,
    explanation := "E".toList }

/-- A candidate with a duplicated option. -/
def dupCand : JValue :=
  .jobj [(kQuestion, .jstr "Q".toList),
         (kOptions, .jarr [.jstr "A".toList, .jstr "A".toList,
                           .jstr "B".toList, .jstr "C".toList]),
         (kCorrectAnswer, .jstr "A".toList),
         (kExplanation, .jstr "E".toList)]

/-- The record `validate_one` accepts for `dupCand`. -/
def dupRec : QuestionRecord :=
  { question := "Q".toList,
    options := ["A".toList, "A".toList, "B".toList, "C".toList],
    correctAnswer := "A".toList,
    explanation := "E".toList }

/-- The options value of a candidate with only three options. -/
def threeOptVals : List JValue :=
  [.jstr "A".toList, .jstr "B".toList, .jstr "C".toList]

/-- The fields of a candidate with only three options. -/
def threeOptFields : List (List Char × JValue) :=
  [(kQuestion, .jstr "Q".toList),
   (kOptions, .jarr threeOptVals),
   (kCorrectAnswer, .jstr "A".toList),
   (kExplanation, .jstr "E".toList)]

/-- A candidate with only three options. -/
def threeOptCand : JValue := .jobj threeOptFields

/-- The options value of the containment scenario. -/
def parisOptVals : List JValue :=
  [.jstr "  Paris, France  ".toList, .jstr "London".toList,
   .jstr "Berlin".toList, .jstr "Madrid".toList]

/-- The option strings of the containment scenario. -/
def parisOpts : List (List Char) :=
  ["  Paris, France  ".toList, "London".toList, "Berlin".toList, "Madrid".toList]

/-- The fields of the containment scenario of the spec: the correct answer is
a strict substring of the first option. -/
def parisFields : List (List Char × JValue) :=
  [(kQuestion, .jstr "Q".toList),
   (kOptions, .jarr parisOptVals),
   (kCorrectAnswer, .jstr "Paris".toList),
   (kExplanation, .jstr "E".toList)]

/-- The containment-scenario candidate. -/
def parisCand : JValue := .jobj parisFields

/-- A raw response that decodes to a list with one invalid candidate. -/
def numText : List Char := "[1]".toList

/-- An input on which cleaning is not idempotent: its first cleaning consumes
the leading `[` (the stray-text pass rewrites `[abc` + brace to a bare brace),
so the second cleaning finds no opening marker. -/
def notIdemInput : List Char := "[abc\x7ddef]".toList

/-- An input whose cleaned form is a fixed point of every cleaning pass. -/
def fixedInput : List Char := "[\"a\"]".toList

/-- A JSON decoder stub honest on `numText` and failing elsewhere. -/
def numLoads (s : List Char) : Option JValue :=
  if s = numText then some (.jarr [.jnum 1]) else none


/-! ### Inversion lemmas -/

/-- Everything that must have held for `validate_one` to accept a candidate,
and the exact shape of the accepted record. -/
theorem validate_one_eq_some {q : JValue} {rec : QuestionRecord}
    (h : validate_one q = some rec) :
    ∃ fields questionText optVals correctAnswerRaw explanationText opts,
      q = .jobj fields ∧
      getStr fields kQuestion = some questionText ∧
      getArr fields kOptions = some optVals ∧
      getStr fields kCorrectAnswer = some correctAnswerRaw ∧
      getStr fields kExplanation = some explanationText ∧
      allStrings optVals = some opts ∧
      optVals.length = 4 ∧
      pyStrip correctAnswerRaw ∈ opts.map pyStrip ∧
      rec = { question := escape_json_string questionText,
              options := opts.map escape_json_string,
              correctAnswer := escape_json_string correctAnswerRaw,
              explanation := escape_json_string explanationText } := by
  cases q with
  | jobj fields =>
    simp only [validate_one] at h
    cases hq : getStr fields kQuestion with
    | none => rw [hq] at h; simp at h
    | some questionText =>
      rw [hq] at h
      cases ho : getArr fields kOptions with
      | none => rw [ho] at h; simp at h
      | some optVals =>
        rw [ho] at h
        cases hca : getStr fields kCorrectAnswer with
        | none => rw [hca] at h; simp at h
        | some correctAnswerRaw =>
          rw [hca] at h
          cases hex : getStr fields kExplanation with
          | none => rw [hex] at h; simp at h
          | some explanationText =>
            rw [hex] at h
            dsimp only at h
            by_cases hlen : optVals.length = 4
            · rw [if_pos hlen] at h
              cases hall : allStrings optVals with
              | none => rw [hall] at h; simp at h
              | some opts =>
                rw [hall] at h
                dsimp only at h
                by_cases hmem : pyStrip correctAnswerRaw ∈ opts.map pyStrip
                · rw [if_pos hmem] at h
                  exact ⟨fields, questionText, optVals, correctAnswerRaw,
                    explanationText, opts, rfl, hq, ho, hca, hex, hall, hlen,
                    hmem, (Option.some.inj h).symm⟩
                · rw [if_neg hmem] at h; exact Option.noConfusion h
            · rw [if_neg hlen] at h; exact Option.noConfusion h
  | jnull => simp [validate_one] at h
  | jbool b => simp [validate_one] at h
  | jnum n => simp [validate_one] at h
  | jstr s => simp [validate_one] at h
  | jarr l => simp [validate_one] at h

/-- Reformulation of `parse_gemini_response` with its `let` bindings unfolded. -/
theorem parse_gemini_response_eq (loads : List Char → Option JValue)
    (text : List Char) :
    parse_gemini_response loads text =
      (if clean_gemini_json text = [] then none
       else
         match loads (clean_gemini_json text) with
         | none => none
         | some (.jarr questions) =>
           if (questions.filterMap validate_one).length > 0
           then some (questions.filterMap validate_one) else none
         | some _ => none) := rfl

/-- Everything that must have held for `parse_gemini_response` to return a
list, and what that list is. -/
theorem parse_eq_some {loads : List Char → Option JValue} {text : List Char}
    {l : List QuestionRecord}
    (h : parse_gemini_response loads text = some l) :
    clean_gemini_json text ≠ [] ∧
    ∃ qs, loads (clean_gemini_json text) = some (.jarr qs) ∧
      l = qs.filterMap validate_one ∧ 0 < l.length := by
  rw [parse_gemini_response_eq] at h
  by_cases hc : clean_gemini_json text = []
  · rw [if_pos hc] at h; exact Option.noConfusion h
  · refine ⟨hc, ?_⟩
    rw [if_neg hc] at h
    cases hl : loads (clean_gemini_json text) with
    | none => rw [hl] at h; exact Option.noConfusion h
    | some v =>
      rw [hl] at h
      cases v with
      | jarr qs =>
        dsimp only at h
        by_cases hlen : (qs.filterMap validate_one).length > 0
        · rw [if_pos hlen] at h
          exact ⟨qs, rfl, (Option.some.inj h).symm, (Option.some.inj h) ▸ hlen⟩
        · rw [if_neg hlen] at h; exact Option.noConfusion h
      | jnull => simp at h
      | jbool b => simp at h
      | jnum n => simp at h
      | jstr s => simp at h
      | jobj fields => simp at h

/-- Reformulation of `clean_gemini_json` with its `let` bindings unfolded. -/
theorem clean_gemini_json_eq (s : List Char) :
    clean_gemini_json s =
      (match findCharIdx '[' (stripFences s), findCharIdx ']' (stripFences s).reverse with
       | some start_index, some rev_index =>
         postClean (((stripFences s).take ((stripFences s).length - rev_index)).drop start_index)
       | _, _ => []) := rfl

/-- A character that does not occur in a string is not found in it. -/
theorem findCharIdx_eq_none (c : Char) (s : List Char) (h : c ∉ s) :
    findCharIdx c s = none := by
  rw [findCharIdx, List.findIdx?_eq_none_iff]
  intro x hx
  simp only [decide_eq_false_iff_not]
  intro hxc
  exact h (hxc ▸ hx)

/-- The extractor `allStrings` preserves length. -/
theorem allStrings_length {l : List JValue} {o : List (List Char)}
    (h : allStrings l = some o) : o.length = l.length := by
  induction l generalizing o with
  | nil =>
    have : ([] : List (List Char)) = o := Option.some.inj h
    rw [← this]; rfl
  | cons v vs ih =>
    cases v with
    | jstr s =>
      rw [show allStrings (JValue.jstr s :: vs) = (allStrings vs).map (s :: ·) from rfl] at h
      cases hvs : allStrings vs with
      | none => rw [hvs] at h; exact Option.noConfusion h
      | some os =>
        rw [hvs] at h
        have hos : s :: os = o := Option.some.inj h
        rw [← hos]
        simp [ih hvs]
    | jnull => exact Option.noConfusion h
    | jbool b => exact Option.noConfusion h
    | jnum n => exact Option.noConfusion h
    | jarr items => exact Option.noConfusion h
    | jobj fields => exact Option.noConfusion h

/-- Strings that every cleaning pass leaves unchanged, and that begin with the
opening list marker and end with the closing one, are fixed points of
`clean_gemini_json`. -/
theorem clean_eq_self_of_fixed (y : List Char)
    (hsf : stripFences y = y) (hh : y.head? = some '[')
    (hl : y.getLast? = some ']') (hp : postClean y = y) :
    clean_gemini_json y = y := by
  obtain ⟨t, rfl⟩ : ∃ t, y = '[' :: t := by
    cases y with
    | nil => exact Option.noConfusion hh
    | cons a t =>
      have ha : a = '[' := by simpa using hh
      exact ⟨t, by rw [ha]⟩
  have hfind1 : findCharIdx '[' ('[' :: t) = some 0 := by
    simp [findCharIdx, List.findIdx?_cons]
  have hrev : ('[' :: t).reverse.head? = some ']' := by
    rw [List.head?_reverse]; exact hl
  obtain ⟨t2, hrt⟩ : ∃ t2, ('[' :: t).reverse = ']' :: t2 := by
    rcases hr : ('[' :: t).reverse with _ | ⟨b, t2⟩
    · rw [hr] at hrev; exact Option.noConfusion hrev
    · rw [hr] at hrev
      have hb : b = ']' := by simpa using hrev
      exact ⟨t2, by rw [hb]⟩
  have hfind2 : findCharIdx ']' (('[' :: t).reverse) = some 0 := by
    rw [hrt]; simp [findCharIdx, List.findIdx?_cons]
  rw [clean_gemini_json_eq, hsf, hfind1, hfind2]
  dsimp only
  rw [Nat.sub_zero, List.take_length, List.drop_zero]
  exact hp

/-! ### Evaluation checks

Concrete evaluations of the embedded cleaner, all agreeing with the observed
behavior of the original Python `re`-based code on the same inputs. -/

theorem stripFences_check_fenced_block :
    stripFences "```json\n[1,2]\n``` tail".toList = "[1,2] tail".toList := by decide

theorem stripFences_check_two_fences :
    stripFences "pre ```[a]``` mid ```x``` post".toList = "pre [a] mid x post".toList := by
  decide

theorem strayText_check_swallows_bracket :
    reSubConst toksStrayText ['\x7d'] "[abc\x7ddef]".toList = "\x7ddef]".toList := by decide

theorem strayText_check_across_newline :
    reSubConst toksStrayText ['\x7d'] "a\nb\x7d".toList = "a\x7d".toList := by decide

theorem strayKV_check :
    reSubConst toksStrayKV ['\x7d'] "[\x7b\"k\": [1] \x7d]".toList = "[\x7b\x7d]".toList := by
  decide

theorem braceComma_check :
    reSubConst toksBraceComma ['\x7d', ','] "\x7d , x\x7d  ,y".toList = "\x7d, x\x7d,y".toList := by
  decide

theorem clean_check_slice :
    clean_gemini_json "noise [1, 2] trailing".toList = "[1, 2]".toList := by decide

theorem clean_check_fixtures :
    clean_gemini_json goodText = goodText ∧ clean_gemini_json spacedText = spacedText := by
  constructor <;> decide

/-! ### The claims -/

/-- C8 (counterexample): for the one-character string consisting of a newline
— which contains one of the listed special characters — decoding the escaped
form yields the original newline, not the trimmed (empty) original, so the
claim "decoding the output of the escape transform yields the trimmed
original" is false. -/
theorem C8_counterexample :
    json_string_decode (escape_json_string ['\n']) ≠ some (pyStrip ['\n']) := by
  decide

/-- C8 (amended): decoding the output of `escape_json_string` with a standard
JSON string decoder yields the original string unchanged — not trimmed — for
every input string. -/
theorem C8_escape_decode_roundtrip_original (s : List Char) :
    json_string_decode (escape_json_string s) = some s :=
  decode_escape_roundtrip s

/-- C2 (counterexample): with the model client failing, the fetch performs
exactly one model-client invocation and returns the plain failure signal
`None`; in particular it does not perform `maxRetries` (for example 3)
attempts, so the claimed retry loop does not exist. -/
theorem C2_counterexample :
    fetch_trivia_question_from_gemini (some "k".toList) (.error ()) goodLoads
        "History".toList 10 = (none, 1) ∧ (1 : Nat) ≠ 3 :=
  ⟨rfl, by decide⟩

/-- C2 (amended): whenever the model client fails,
`fetch_trivia_question_from_gemini` performs exactly one attempt — there is
no retry loop and no backoff — and returns `None` to the caller (not a
distinguished ExhaustedRetries error). -/
theorem C2_failing_client_one_attempt_returns_none (key category : List Char)
    (n : Nat) (loads : List Char → Option JValue) :
    fetch_trivia_question_from_gemini (some key) (.error ()) loads category n =
      (none, 1) := rfl

/-- C10: `parse_gemini_response` never returns an empty list — its result is
either the failure signal `None` or a non-empty list of validated records. -/
theorem C10_no_empty_list (loads : List Char → Option JValue) (text : List Char) :
    parse_gemini_response loads text = none ∨
    ∃ r rs, parse_gemini_response loads text = some (r :: rs) := by
  rw [parse_gemini_response_eq]
  by_cases hc : clean_gemini_json text = []
  · rw [if_pos hc]; exact Or.inl rfl
  · rw [if_neg hc]
    cases hl : loads (clean_gemini_json text) with
    | none => exact Or.inl rfl
    | some v =>
      cases v with
      | jarr qs =>
        cases hfm : qs.filterMap validate_one with
        | nil => simp [hfm]
        | cons r rs =>
          refine Or.inr ⟨r, rs, ?_⟩
          simp [hfm]
      | jnull => exact Or.inl rfl
      | jbool b => exact Or.inl rfl
      | jnum n => exact Or.inl rfl
      | jstr s => exact Or.inl rfl
      | jobj fields => exact Or.inl rfl

/-- C4 (counterexample): cleaning is not idempotent.  On `"[abc}def]"` the
first cleaning returns `"}def]"` (the stray-text pass swallows the leading
bracket), and cleaning that again returns the failure signal `""`. -/
theorem C4_counterexample :
    clean_gemini_json (clean_gemini_json notIdemInput) ≠
      clean_gemini_json notIdemInput := by
  decide

/-- C4 (amended): re-cleaning is a no-op only on already-clean text: whenever
the cleaned output is left unchanged by the fence pass and by the regex
cleanup passes, and still begins with `[` and ends with `]`, then
`clean(clean(x)) = clean(x)`; in general (see the counterexample) the cleanup
passes can destroy their own output's list markers and idempotence fails. -/
theorem C4_clean_idempotent_on_pass_fixed_points (x : List Char)
    (h1 : stripFences (clean_gemini_json x) = clean_gemini_json x)
    (h2 : (clean_gemini_json x).head? = some '[')
    (h3 : (clean_gemini_json x).getLast? = some ']')
    (h4 : postClean (clean_gemini_json x) = clean_gemini_json x) :
    clean_gemini_json (clean_gemini_json x) = clean_gemini_json x :=
  clean_eq_self_of_fixed (clean_gemini_json x) h1 h2 h3 h4

/-- C4 (witness): the input `"[\"a\"]"` satisfies the hypotheses of the
amended claim, and cleaning it twice equals cleaning it once. -/
theorem C4_witness :
    stripFences (clean_gemini_json fixedInput) = clean_gemini_json fixedInput ∧
    (clean_gemini_json fixedInput).head? = some '[' ∧
    (clean_gemini_json fixedInput).getLast? = some ']' ∧
    postClean (clean_gemini_json fixedInput) = clean_gemini_json fixedInput ∧
    clean_gemini_json (clean_gemini_json fixedInput) = clean_gemini_json fixedInput :=
  ⟨by decide, by decide, by decide, by decide,
   C4_clean_idempotent_on_pass_fixed_points fixedInput
     (by decide) (by decide) (by decide) (by decide)⟩

/-- C7: after fence stripping, if the opening `[` or the closing `]` marker
is absent, cleaning returns the empty-string failure signal; when both are
present, the result is computed from exactly the span running from the first
`[` to the last `]` — everything outside it is discarded before the cleanup
passes run. -/
theorem C7_boundary_extraction (s : List Char) :
    (('[' ∉ stripFences s ∨ ']' ∉ stripFences s) → clean_gemini_json s = []) ∧
    (∀ i j, findCharIdx '[' (stripFences s) = some i →
      findCharIdx ']' (stripFences s).reverse = some j →
      clean_gemini_json s =
        postClean (((stripFences s).take ((stripFences s).length - j)).drop i)) := by
  constructor
  · intro h
    rcases h with h | h
    · have h1 : findCharIdx '[' (stripFences s) = none := findCharIdx_eq_none _ _ h
      rw [clean_gemini_json_eq, h1]
    · have h1 : findCharIdx ']' (stripFences s).reverse = none :=
        findCharIdx_eq_none _ _ (by simpa [List.mem_reverse] using h)
      rw [clean_gemini_json_eq, h1]
      cases findCharIdx '[' (stripFences s) <;> rfl
  · intro i j hi hj
    rw [clean_gemini_json_eq, hi, hj]

/-- C7 (witness): a string with no list markers cleans to the failure
signal. -/
theorem C7_witness :
    ('[' ∉ stripFences "xyz".toList ∨ ']' ∉ stripFences "xyz".toList) ∧
    clean_gemini_json "xyz".toList = [] :=
  ⟨by decide, (C7_boundary_extraction "xyz".toList).1 (by decide)⟩

/-- C1 (counterexample): a batch whose candidate has `correctAnswer`
`" Paris"` (leading space) and first option `"Paris"` is accepted — the
stripped forms match — but the returned record stores the escaped original
`" Paris"`, which equals no element of its options by exact string match. -/
theorem C1_counterexample_post_escaping_mismatch :
    parse_gemini_response spacedLoads spacedText = some [spacedRec] ∧
    spacedRec.correctAnswer ∉ spacedRec.options :=
  ⟨by decide, by decide⟩

/-- C1 (amended): for every record returned by `parse_gemini_response`, the
record's `correctAnswer` matches one element of its `options` up to the JSON
escaping and trimming: decoding both fields with a standard JSON string
decoder and trimming the results yields equal strings.  (Exact equality of
the stored fields can fail, because the stored `correctAnswer` is the escaped
original text, not the stripped form that was compared.) -/
theorem C1_correctAnswer_matches_option_up_to_escape_and_trim
    (loads : List Char → Option JValue) (text : List Char)
    (l : List QuestionRecord) (rec : QuestionRecord)
    (h1 : parse_gemini_response loads text = some l) (h2 : rec ∈ l) :
    ∃ opt ∈ rec.options, ∃ a b,
      json_string_decode rec.correctAnswer = some a ∧
      json_string_decode opt = some b ∧ pyStrip a = pyStrip b := by
  obtain ⟨-, qs, hload, hleq, -⟩ := parse_eq_some h1
  rw [hleq] at h2
  obtain ⟨q, hq_mem, hq⟩ := List.mem_filterMap.mp h2
  obtain ⟨fields, qt, optVals, caRaw, ex, opts, -, -, -, -, -, -, -, hmem, hrec⟩ :=
    validate_one_eq_some hq
  obtain ⟨o, ho_mem, ho_eq⟩ := List.mem_map.mp hmem
  refine ⟨escape_json_string o, ?_, caRaw, o, ?_, ?_, ?_⟩
  · rw [hrec]
    exact List.mem_map.mpr ⟨o, ho_mem, rfl⟩
  · rw [hrec]
    exact decode_escape_roundtrip caRaw
  · exact decode_escape_roundtrip o
  · exact ho_eq.symm

/-- C1 (witness): the record produced from `goodText` has a correct answer
that decodes and trims to one of its options. -/
theorem C1_witness :
    parse_gemini_response goodLoads goodText = some [goodRec] ∧
    goodRec ∈ [goodRec] ∧
    ∃ opt ∈ goodRec.options, ∃ a b,
      json_string_decode goodRec.correctAnswer = some a ∧
      json_string_decode opt = some b ∧ pyStrip a = pyStrip b :=
  ⟨by decide, by decide,
   C1_correctAnswer_matches_option_up_to_escape_and_trim goodLoads goodText
     [goodRec] goodRec (by decide) (by decide)⟩

/-- C3 (counterexample): a candidate whose options are `["A", "A", "B", "C"]`
— four options with a duplicate — is accepted, so the validator does not
require distinctness. -/
theorem C3_counterexample_duplicates_accepted :
    validate_one dupCand = some dupRec ∧ ¬ (dupRec.options.map pyStrip).Nodup :=
  ⟨by decide, by decide⟩

/-- C3 (amended): every accepted record has exactly 4 options, and a
candidate whose options list has any other length is rejected; but the
validator never checks distinctness, so duplicated options are accepted (see
the counterexample). -/
theorem C3_exactly_four_options_distinctness_unchecked :
    (∀ q rec, validate_one q = some rec → rec.options.length = 4) ∧
    (∀ fields optVals, getArr fields kOptions = some optVals →
      optVals.length ≠ 4 → validate_one (.jobj fields) = none) := by
  constructor
  · intro q rec h
    obtain ⟨fields, qt, optVals, caRaw, ex, opts, -, -, -, -, -, hall, hlen, -, hrec⟩ :=
      validate_one_eq_some h
    have hlo : opts.length = optVals.length := allStrings_length hall
    rw [hrec]
    show (opts.map escape_json_string).length = 4
    rw [List.length_map, hlo]
    exact hlen
  · intro fields optVals hga hlen
    simp only [validate_one]
    rw [hga]
    cases hq : getStr fields kQuestion with
    | none => rfl
    | some qt =>
      cases hca : getStr fields kCorrectAnswer with
      | none => rfl
      | some caRaw =>
        cases hex : getStr fields kExplanation with
        | none => rfl
        | some ex =>
          dsimp only
          rw [if_neg hlen]

/-- C3 (witness): a candidate with three options is rejected. -/
theorem C3_witness :
    getArr threeOptFields kOptions = some threeOptVals ∧
    threeOptVals.length ≠ 4 ∧
    validate_one (.jobj threeOptFields) = none :=
  ⟨rfl, by decide,
   C3_exactly_four_options_distinctness_unchecked.2 threeOptFields threeOptVals
     rfl (by decide)⟩

/-- C5 (counterexample): the candidate with `correctAnswer = "Paris"` and
options `["  Paris, France  ", "London", "Berlin", "Madrid"]` is rejected —
no record is produced at all, let alone one rewritten to `"Paris, France"` —
because the validator accepts only exact equality of stripped strings, not
substring containment. -/
theorem C5_counterexample_containment_rejected :
    validate_one parisCand = none := by decide

/-- C5 (amended): a candidate whose stripped `correctAnswer` equals no
stripped option is rejected, even when it occurs as a substring of an option;
and an accepted record's `correctAnswer` is always the escaped original
`correctAnswer` text — it is never rewritten to an option's text. -/
theorem C5_exact_trimmed_match_required_no_rewrite :
    (∀ fields caRaw optVals opts,
      getStr fields kCorrectAnswer = some caRaw →
      getArr fields kOptions = some optVals →
      allStrings optVals = some opts →
      pyStrip caRaw ∉ opts.map pyStrip →
      validate_one (.jobj fields) = none) ∧
    (∀ q rec, validate_one q = some rec →
      ∃ fields caRaw, q = .jobj fields ∧
        getStr fields kCorrectAnswer = some caRaw ∧
        rec.correctAnswer = escape_json_string caRaw) := by
  constructor
  · intro fields caRaw optVals opts hca hga hall hmem
    simp only [validate_one]
    rw [hga, hca]
    cases hq : getStr fields kQuestion with
    | none => rfl
    | some qt =>
      cases hex : getStr fields kExplanation with
      | none => rfl
      | some ex =>
        dsimp only
        by_cases hlen : optVals.length = 4
        · rw [if_pos hlen, hall]
          dsimp only
          rw [if_neg hmem]
        · rw [if_neg hlen]
  · intro q rec h
    obtain ⟨fields, qt, optVals, caRaw, ex, opts, hq, -, -, hca, -, -, -, -, hrec⟩ :=
      validate_one_eq_some h
    exact ⟨fields, caRaw, hq, hca, by rw [hrec]⟩

/-- C5 (witness): the Paris candidate of the claim is rejected by the first
part of the amended claim. -/
theorem C5_witness :
    getStr parisFields kCorrectAnswer = some "Paris".toList ∧
    getArr parisFields kOptions = some parisOptVals ∧
    allStrings parisOptVals = some parisOpts ∧
    pyStrip "Paris".toList ∉ parisOpts.map pyStrip ∧
    validate_one (.jobj parisFields) = none :=
  ⟨rfl, rfl, rfl, by decide,
   C5_exact_trimmed_match_required_no_rewrite.1 parisFields "Paris".toList
     parisOptVals parisOpts rfl rfl rfl (by decide)⟩

/-- C6 (counterexample): a decoded batch with a single invalid candidate has
an empty passing subset, yet `parse_gemini_response` returns the failure
signal `None` rather than that empty subset — an all-invalid batch is
rejected as a whole. -/
theorem C6_counterexample_empty_subset_rejected :
    ([JValue.jnum 1].filterMap validate_one = ([] : List QuestionRecord)) ∧
    parse_gemini_response numLoads numText = none :=
  ⟨rfl, by decide⟩

/-- C6 (amended): when cleaning succeeds and the payload decodes to a list of
candidates, the parser returns exactly the subset of candidates passing all
per-candidate checks, in source order, whenever that subset is non-empty; a
failing candidate is silently dropped and never aborts the others — but when
the passing subset is empty the batch fails as a whole: the caller receives
the failure signal `None`, not an empty list. -/
theorem C6_lenient_subset_or_none (loads : List Char → Option JValue)
    (text : List Char) (qs : List JValue)
    (h1 : clean_gemini_json text ≠ [])
    (h2 : loads (clean_gemini_json text) = some (.jarr qs)) :
    parse_gemini_response loads text =
      if qs.filterMap validate_one = [] then none
      else some (qs.filterMap validate_one) := by
  rw [parse_gemini_response_eq, if_neg h1, h2]
  dsimp only
  cases hfm : qs.filterMap validate_one with
  | nil => simp
  | cons r rs => simp

/-- C6 (witness): for the well-formed single-candidate batch, the parser
returns exactly the (non-empty) passing subset. -/
theorem C6_witness :
    clean_gemini_json goodText ≠ [] ∧
    goodLoads (clean_gemini_json goodText) = some (.jarr [goodCand]) ∧
    parse_gemini_response goodLoads goodText =
      (if [goodCand].filterMap validate_one = [] then none
       else some ([goodCand].filterMap validate_one)) :=
  ⟨by decide, rfl,
   C6_lenient_subset_or_none goodLoads goodText [goodCand] (by decide) rfl⟩

/-- C9: in the success path of `get_questions`, when the unused questions
available for the category are fewer than the requested count, exactly one
refetch is performed before the handler falls back to returning fewer
questions than requested; when enough are available, no refetch happens. -/
theorem C9_refetch_exactly_once (cached : List QuestionRecord)
    (fetchFirst fetchRefresh : Option (List QuestionRecord))
    (sample : List QuestionRecord → Nat → List QuestionRecord)
    (usedSet : List (List Char)) (n : Nat) :
    ∃ sel, get_questions (some cached) fetchFirst fetchRefresh sample usedSet n =
      .ok (sel, if (availableOf cached usedSet).length < n then 1 else 0) := by
  by_cases h : (availableOf cached usedSet).length < n
  · exact ⟨_, by simp only [get_questions, serve_questions, if_pos h]; rfl⟩
  · exact ⟨_, by simp only [get_questions, serve_questions, if_neg h]; rfl⟩
